import Mathlib

/-!
Verification development for the alopekis data-file export pipeline.

The definitions below are a shallow embedding of the Python sources:

* `src/main.py` — `results_thread`, the Results Aggregator / Reconciler
  (modelled by `processEvent`, `mergeFinal`, `analyse`, `sumDiffs`);
* `src/alopekis/opensearch.py` — `OpenSearchClient.return_all_results`,
  the paginated result stream (modelled by `runStream`);
* `src/alopekis/worker.py` — `month_worker`'s per-record loop and
  sequence-file rotation (modelled by `processRecord` / `runJob`);
* `src/alopekis/serializer.py` — `json_serialize` and its helpers,
  over an explicit model of Python dictionaries (`Dict`, `JVal`);
* `src/alopekis/utils.py` — `queue_month` / `get_month_count`.

Machine integers are modelled by `Nat`/`Int` (Python integers are
unbounded, so no wrap-around is needed); Python float division in the
reconciler's `pct` computation is modelled by exact `Rat` division;
code that can raise (`KeyError`, `TypeError`, `TooManyTimeouts`, ...)
returns `Except String _` or a dedicated outcome type.
-/

/-! ## Python dict model (association list preserving insertion order)

Python 3.7+ dictionaries preserve insertion order: assignment to an
existing key keeps its position, assignment to a new key appends, and
`pop`/`del` remove the entry.  `alget d k` models `d.get(k)` /
`k in d`, `alset` models `d[k] = v`, `alupdate` an in-place update of
an existing key, and `alerase` models `del d[k]`. -/

def alget {α : Type} (d : List (String × α)) (k : String) : Option α :=
  match d with
  | [] => none
  | (k', v) :: t => if k' = k then some v else alget t k

def alset {α : Type} (d : List (String × α)) (k : String) (v : α) : List (String × α) :=
  match d with
  | [] => [(k, v)]
  | (k', v') :: t => if k' = k then (k, v) :: t else (k', v') :: alset t k v

def alupdate {α : Type} (d : List (String × α)) (k : String) (f : α → α) : List (String × α) :=
  match d with
  | [] => []
  | (k', v) :: t => if k' = k then (k', f v) :: t else (k', v) :: alupdate t k f

def alerase {α : Type} (d : List (String × α)) (k : String) : List (String × α) :=
  match d with
  | [] => []
  | (k', v) :: t => if k' = k then t else (k', v) :: alerase t k

theorem alget_alupdate {α : Type} (d : List (String × α)) (k : String) (f : α → α) :
    alget (alupdate d k f) k = (alget d k).map f := by
  induction d with
  | nil => rfl
  | cons h t ih =>
    obtain ⟨k', v⟩ := h
    by_cases hk : k' = k <;> simp [alget, alupdate, hk, ih]

/-! ## Reconciler state (`src/main.py`, `results_thread`)

`results` is a Python dict keyed by `f"{year}-{month}"`; each value is
a dict that may hold the keys `expected`, `final`, `diff`, `pct`.  We
model the value as a structure of `Option` fields.  The `year`/`month`
fields record the integers the key was built from; the source recovers
exactly these by `key.split('-')` when regenerating, so carrying them
in the bucket is equivalent. -/

structure Bucket where
  year : Nat
  month : Nat
  expected : Option Nat := none
  final : Option Nat := none
  diff : Option Int := none
  pct : Option Rat := none
deriving Repr, DecidableEq

abbrev Results := List (String × Bucket)

inductive Phase
  | expected
  | final
deriving Repr, DecidableEq

/-- An entry of the results queue (`{'year': …, 'month': …, 'count': …, 'status': …}`). -/
structure REvent where
  year : Nat
  month : Nat
  count : Nat
  status : Phase
deriving Repr, DecidableEq

/-- Side effects of the reconciler on the work queue: `requeue` stands for
the `queue_month(..., count=None)` call made for a month selected for
regeneration, `sentinel` for one `work_queue.put(None)`. -/
inductive RAction
  | requeue (key : String) (year month : Nat)
  | sentinel
deriving Repr, DecidableEq

/-- Configuration of `results_thread`: the two thresholds from
`alopekis.config`, the worker count, and the value of
`date.today().strftime("%Y-%m")` for this run. -/
structure Cfg where
  totalThreshold : Int
  monthThreshold : Int
  workerCount : Nat
  currentKey : String
deriving Repr, DecidableEq

/-- `f"{year}-{month}"` (line 85 of `src/main.py`): no zero padding. -/
def bucketKey (year month : Nat) : String :=
  toString year ++ "-" ++ toString month

/-- Two-digit zero padding, as in `%m` / Python's `{:02d}`. -/
def pad2 (n : Nat) : String :=
  if n < 10 then "0" ++ toString n else toString n

/-- `date.today().strftime("%Y-%m")` (line 101 of `src/main.py`):
month zero-padded to two digits. -/
def strftimeYM (year month : Nat) : String :=
  toString year ++ "-" ++ pad2 month

/-- Lines 86–87: `if key not in results: results[key] = {}`. -/
def ensureKey (results : Results) (key : String) (year month : Nat) : Results :=
  match alget results key with
  | some _ => results
  | none => results ++ [(key, { year := year, month := month })]

/-- Line 92: `results[key][status] = count`. -/
def setPhase (results : Results) (key : String) (ph : Phase) (count : Nat) : Results :=
  alupdate results key fun b =>
    match ph with
    | .expected => { b with expected := some count }
    | .final => { b with final := some count }

/-- Lines 95–96: compute `diff` and `pct` for a bucket whose `final` was just
merged.  Reading a missing `expected` (or `final`) is a Python `KeyError`. -/
def mergeFinal (results : Results) (key : String) : Except String Results :=
  match alget results key with
  | none => .error ("KeyError: " ++ key)
  | some b =>
    match b.expected with
    | none => .error "KeyError: expected"
    | some exp =>
      match b.final with
      | none => .error "KeyError: final"
      | some fin =>
        let d : Int := (exp : Int) - (fin : Int)
        let p : Rat := if 0 < exp then ((d : Rat) / (exp : Rat)) * 100 else 0
        .ok (alupdate results key fun b => { b with diff := some d, pct := some p })

/-- Line 99: `all(["final" in results[key] for key in results])`. -/
def allFinal (results : Results) : Bool :=
  results.all fun p => p.2.final.isSome

/-- Line 102: `sum(results[key]['diff'] for key in results if key != current_key)`;
a bucket with no `diff` key would raise `KeyError`. -/
def sumDiffs (results : Results) (currentKey : String) : Except String Int :=
  match results with
  | [] => .ok 0
  | (k, b) :: t =>
    if k = currentKey then sumDiffs t currentKey
    else
      match b.diff with
      | none => .error "KeyError: diff"
      | some d =>
        match sumDiffs t currentKey with
        | .error e => .error e
        | .ok s => .ok (d + s)

/-- Line 110's selection predicate: `results[key]['diff'] > MONTH_THRESHOLD`.
(`analyse` is only reached when every bucket holds a `final`, and every
reachable bucket with a `final` also holds a `diff`, so the `none` branch
is never exercised there.) -/
def bucketDiffGT (threshold : Int) (b : Bucket) : Bool :=
  match b.diff with
  | some d => threshold < d
  | none => false

/-- Lines 101–143 of `src/main.py`: the regeneration decision taken once
every tracked bucket has a `final` count.  Selected months are deleted
from `results` and re-queued via `queue_month(..., count=None)`; otherwise
one `None` sentinel per worker is put on the work queue. -/
def analyse (cfg : Cfg) (results : Results) : Except String (Results × List RAction) :=
  match sumDiffs results cfg.currentKey with
  | .error e => .error e
  | .ok discrepancy =>
    if cfg.totalThreshold < discrepancy then
      let rerun := results.filter fun p => bucketDiffGT cfg.monthThreshold p.2
      if 0 < rerun.length then
        .ok (rerun.foldl (fun acc p => alerase acc p.1) results,
             rerun.map fun p => RAction.requeue p.1 p.2.year p.2.month)
      else
        .ok (results, List.replicate cfg.workerCount RAction.sentinel)
    else
      .ok (results, List.replicate cfg.workerCount RAction.sentinel)

/-- Lines 80–143 of `src/main.py`: processing of one results-queue event. -/
def processEvent (cfg : Cfg) (results : Results) (e : REvent) :
    Except String (Results × List RAction) :=
  let key := bucketKey e.year e.month
  let results := ensureKey results key e.year e.month
  let results := setPhase results key e.status e.count
  match e.status with
  | .expected => .ok (results, [])
  | .final =>
    match mergeFinal results key with
    | .error e => .error e
    | .ok results =>
      if allFinal results then analyse cfg results
      else .ok (results, [])

/-! ## Paginated result stream (`src/alopekis/opensearch.py`,
`OpenSearchClient.return_all_results`)

Records are identified by their sort key (the query sorts on
`updated, uid`, so keys are unique); we model a record as its sort key,
a `Nat`.  One `self.query.execute()` yields either a page of hits, a
response with `timed_out` set, or a raised exception — modelled by
`BackendResult`.  A backend is a function of the current `search_after`
cursor (the cursor is the only part of the query the loop mutates). -/

inductive BackendResult
  | page (hits : List Nat)
  | timeout
  | failure
deriving Repr, DecidableEq

/-- Outcome of `return_all_results`: normal exhaustion with the records
yielded (in order) and the number of `execute()` attempts made, an
escaped exception, or exhaustion of the step budget.  The
`tooManyTimeouts` constructor mirrors the `TooManyTimeouts` class of
`src/alopekis/exceptions.py`; the loop raises it but, as proved below,
never lets it escape, because the raise is caught by the enclosing
`except Exception` handler. -/
inductive StreamOut
  | finished (records : List Nat) (attempts : Nat)
  | tooManyTimeouts (attempts : Nat)
  | tooManyFailures (attempts : Nat)
  | outOfFuel
deriving Repr, DecidableEq

/-- The `while not query_finished` loop of `return_all_results`
(lines 37–77), fuel-indexed.  State: remaining fuel, cursor
(`search_after`), `timeout_count`, `failure_count`, attempts made so
far, and the records yielded so far.  On a non-empty page the hits are
yielded and the cursor becomes the last hit's sort key
(`response.hits[-1].meta.sort`); on an empty page the stream finishes.
On a timed-out response `timeout_count` is incremented and, past 10,
`raise TooManyTimeouts` executes (line 65) — but that raise sits inside
the `try` suite and `TooManyTimeouts` subclasses `Exception`, so the
broad `except Exception` handler (line 69) catches it: the handler body
runs, incrementing `failure_count`, raising `TooManyFailures` past 10
(this raise is inside the handler and does propagate) and otherwise
sleeping and retrying the same page.  Below 10 timeouts the loop sleeps
and retries with the cursor unchanged.  On a raised backend exception
the handler body runs the same way. -/
def runStream (backend : Option Nat → BackendResult) :
    Nat → Option Nat → Nat → Nat → Nat → List Nat → StreamOut
  | 0, _, _, _, _, _ => .outOfFuel
  | fuel + 1, cursor, timeoutCount, failureCount, attempts, acc =>
    match backend cursor with
    | .page hits =>
      match hits with
      | [] => .finished acc (attempts + 1)
      | h :: t =>
        runStream backend fuel (some ((h :: t).getLast (List.cons_ne_nil h t)))
          timeoutCount failureCount (attempts + 1) (acc ++ (h :: t))
    | .timeout =>
      if 10 < timeoutCount + 1 then
        -- `raise TooManyTimeouts` is caught by `except Exception`:
        -- it is counted as one more failure and handled as such
        if 10 < failureCount + 1 then .tooManyFailures (attempts + 1)
        else runStream backend fuel cursor (timeoutCount + 1) (failureCount + 1)
          (attempts + 1) acc
      else runStream backend fuel cursor (timeoutCount + 1) failureCount (attempts + 1) acc
    | .failure =>
      if 10 < failureCount + 1 then .tooManyFailures (attempts + 1)
      else runStream backend fuel cursor timeoutCount (failureCount + 1) (attempts + 1) acc

/-- The records still ahead of a cursor: `search_after` resumes strictly
after the given sort key. -/
def filterCur (all : List Nat) : Option Nat → List Nat
  | none => all
  | some c => all.filter fun r => decide (c < r)

/-- One page of a fixture backend serving the record set `all` with page
size `ps`: the first `ps` records strictly after the cursor. -/
def pageOf (all : List Nat) (ps : Nat) (cursor : Option Nat) : List Nat :=
  (filterCur all cursor).take ps

/-- A deterministic fixture backend that never times out nor fails and
serves `all` in cursor-based pages of size `ps`. -/
def pager (all : List Nat) (ps : Nat) : Option Nat → BackendResult :=
  fun cursor => .page (pageOf all ps cursor)

/-! ## Partition worker (`src/alopekis/worker.py`, `month_worker`)

We model the per-record loop of one job (lines 59–114).  File-system
side effects are recorded as a chronological event log: every
`gzip.open` of a sequence file, every CSV row written, and every JSONL
line written.  The serialized JSONL payload
(`dumps(json_serialize(result))`) is abstracted to the record itself;
which records get written is what matters here. -/

/-- The fields of a record the worker touches. -/
structure WRecord where
  uid : String
  aasm_state : String
  client_id : String
  updated : String
deriving Repr, DecidableEq

/-- `csv_serialize` from `src/alopekis/serializer.py` (lines 5–19). -/
structure CsvRow where
  doi : String
  state : String
  client_id : String
  updated : String
deriving Repr, DecidableEq

def csv_serialize (r : WRecord) : CsvRow :=
  { doi := r.uid, state := r.aasm_state, client_id := r.client_id, updated := r.updated }

inductive WEvent
  | openSeq (path : String)
  | csvRow (row : CsvRow)
  | jsonLine (r : WRecord)
deriving Repr, DecidableEq

structure WorkerState where
  resultsCount : Nat
  currentFileIndex : Nat
  log : List WEvent
deriving Repr, DecidableEq

/-- Four-digit zero padding, Python's `{:04d}`. -/
def pad4 (n : Nat) : String :=
  if n < 10 then "000" ++ toString n
  else if n < 100 then "00" ++ toString n
  else if n < 1000 then "0" ++ toString n
  else toString n

/-- Line 63: `f"{OUTPUT_PATH}/dois/updated_{year}-{month:02d}/part_{current_file_index:04d}.jsonl.gz"`
(relative to `OUTPUT_PATH`). -/
def partPath (year month idx : Nat) : String :=
  "dois/updated_" ++ toString year ++ "-" ++ pad2 month ++ "/part_" ++ pad4 idx ++ ".jsonl.gz"

/-- Lines 83–107: the body of `for result in results`.  `jsonFilePath` is
the value of the Python variable `json_file_path`, which is computed once
before the loop (with `current_file_index = 0`) and never reassigned: the
rotation branch increments `current_file_index` but reopens
`json_file_path` itself. -/
def processRecord (jsonFilePath : String) (st : WorkerState) (r : WRecord) : WorkerState :=
  let count := st.resultsCount + 1
  let log := st.log ++ [WEvent.csvRow (csv_serialize r)]
  let log := if r.aasm_state = "findable" then log ++ [WEvent.jsonLine r] else log
  if count % 10000 = 0 then
    { resultsCount := count, currentFileIndex := st.currentFileIndex + 1,
      log := log ++ [WEvent.openSeq jsonFilePath] }
  else
    { resultsCount := count, currentFileIndex := st.currentFileIndex, log := log }

/-- Lines 59–107: one job of `month_worker`, fed the list of records the
paginated stream yields.  The initial `gzip.open(json_file_path, "wt")`
is the first `openSeq` event; the reported final count is
`resultsCount`. -/
def runJob (year month : Nat) (records : List WRecord) : WorkerState :=
  let jsonFilePath := partPath year month 0
  let init : WorkerState :=
    { resultsCount := 0, currentFileIndex := 0, log := [WEvent.openSeq jsonFilePath] }
  records.foldl (processRecord jsonFilePath) init

/-- The paths of the sequence-file `gzip.open` calls, in order. -/
def seqPaths (log : List WEvent) : List String :=
  log.filterMap fun e =>
    match e with
    | .openSeq p => some p
    | _ => none

/-- The CSV rows written, in order. -/
def csvRows (log : List WEvent) : List CsvRow :=
  log.filterMap fun e =>
    match e with
    | .csvRow row => some row
    | _ => none

/-- The records written to the JSONL sequence file, in order. -/
def jsonRecords (log : List WEvent) : List WRecord :=
  log.filterMap fun e =>
    match e with
    | .jsonLine r => some r
    | _ => none

/-! ## Job queueing (`src/alopekis/utils.py`)

A backend count oracle stands in for the `track_total_hits` aggregation
query of `get_month_count`; it returns `none` when the query raises (the
Python function then falls off the end and returns `None`). -/

/-- A job put on the work queue by `queue_month`. -/
structure QJob where
  year : Nat
  month : Nat
  count : Option Int
deriving Repr, DecidableEq

/-- The `expected` outcome event put on the results queue by `queue_month`. -/
structure QEvent where
  year : Nat
  month : Nat
  count : Option Int
  status : Phase
deriving Repr, DecidableEq

/-- `get_month_count` (lines 16–31 of `src/alopekis/utils.py`): query the
search backend for the authoritative count of one month. -/
def get_month_count (backend : Nat → Nat → Option Int) (year month : Nat) : Option Int :=
  backend year month

/-- Python truthiness of the `count` argument of `queue_month`
(`None` and `0` are falsy). -/
def truthyCount : Option Int → Bool
  | none => false
  | some c => c != 0

/-- `queue_month` (lines 34–53 of `src/alopekis/utils.py`): `if count:`
keeps the provided count, otherwise the backend is queried; the same
count is put on the work queue and, with status `expected`, on the
results queue. -/
def queue_month (backend : Nat → Nat → Option Int) (year month : Nat)
    (count : Option Int) : QJob × QEvent :=
  let c := if truthyCount count then count else get_month_count backend year month
  ({ year := year, month := month, count := c },
   { year := year, month := month, count := c, status := .expected })

/-! ## Serializer (`src/alopekis/serializer.py`, `json_serialize`)

Records are JSON-like Python values.  `JVal` models a value, `Dict` a
Python dict as an insertion-ordered association list.  Operations that
can raise (`record[k]` / `record.pop(k)` on a missing key, iterating a
non-list, `bytes(...)` of a non-string) return `Except String _`. -/

inductive JVal
  | null
  | bool (b : Bool)
  | num (n : Int)
  | str (s : String)
  | arr (xs : List JVal)
  | obj (fields : List (String × JVal))
deriving Repr

abbrev PDict := List (String × JVal)

mutual

def jvalBeq : JVal → JVal → Bool
  | .null, .null => true
  | .bool a, .bool b => a == b
  | .num a, .num b => a == b
  | .str a, .str b => a == b
  | .arr a, .arr b => jvalListBeq a b
  | .obj a, .obj b => jvalFieldsBeq a b
  | _, _ => false

def jvalListBeq : List JVal → List JVal → Bool
  | [], [] => true
  | a :: as', b :: bs' => jvalBeq a b && jvalListBeq as' bs'
  | _, _ => false

def jvalFieldsBeq : List (String × JVal) → List (String × JVal) → Bool
  | [], [] => true
  | (ka, va) :: as', (kb, vb) :: bs' => ka == kb && jvalBeq va vb && jvalFieldsBeq as' bs'
  | _, _ => false

end

/-- `record.pop(k)`: the value and the dict without the key, or `KeyError`. -/
def dpop (d : PDict) (k : String) : Except String (JVal × PDict) :=
  match alget d k with
  | none => .error ("KeyError: " ++ k)
  | some v => .ok (v, alerase d k)

/-- Python truthiness of a JSON-like value. -/
def truthy : JVal → Bool
  | .null => false
  | .bool b => b
  | .num n => n != 0
  | .str s => !(s.isEmpty)
  | .arr xs => !xs.isEmpty
  | .obj fs => fs.isEmpty = false

/-- `str(v)` for the values `populate_published` can meet
(`publication_year` is numeric; container reprs are not needed). -/
def pyStr : JVal → String
  | .str s => s
  | .num n => toString n
  | .bool b => if b then "True" else "False"
  | .null => "None"
  | .arr _ => "[...]"
  | .obj _ => "\x7b...\x7d"

/-- Split a key's characters at underscores (`"x_y".split("_")`
semantics: a separator at either end or doubled yields empty pieces). -/
def splitUnd : List Char → List (List Char)
  | [] => [[]]
  | c :: t =>
    if c = '_' then [] :: splitUnd t
    else
      match splitUnd t with
      | [] => [[c]]
      | h :: r => (c :: h) :: r

/-- Upper-case the first character of a piece. -/
def capFirst : List Char → List Char
  | [] => []
  | c :: t => c.toUpper :: t

/-- One snake_case → camelCase key conversion, as `humps.camelize` does
for the keys occurring here: the first `_`-separated component is kept,
the following ones are capitalized and joined. -/
def camelizeKey (s : String) : String :=
  match splitUnd s.toList with
  | [] => s
  | h :: t => String.mk (h ++ (t.map capFirst).flatten)

mutual

/-- `humps.camelize` recurses into nested containers. -/
def camelizeVal : JVal → JVal
  | .obj fs => .obj (camelizeFields fs)
  | .arr xs => .arr (camelizeList xs)
  | .null => .null
  | .bool b => .bool b
  | .num n => .num n
  | .str s => .str s

def camelizeFields : List (String × JVal) → List (String × JVal)
  | [] => []
  | (k, v) :: t => (camelizeKey k, camelizeVal v) :: camelizeFields t

def camelizeList : List JVal → List JVal
  | [] => []
  | v :: t => camelizeVal v :: camelizeList t

end

/-- The `array_fields` list of `wrap_array_fields` (lines 134–136). -/
def array_fields : List String :=
  ["creators", "contributors", "rightsList", "fundingReferences", "identifiers",
   "relatedIdentifiers", "relatedItems", "geoLocations", "dates", "subjects",
   "sizes", "titles", "descriptions", "formats"]

/-- The body of `wrap_array_fields`' loop for one field: a present,
non-list value becomes a singleton list if truthy, else the empty list. -/
def wrapOne (record : PDict) (field : String) : PDict :=
  match alget record field with
  | none => record
  | some v =>
    match v with
    | .arr _ => record
    | _ => if truthy v then alset record field (.arr [v]) else alset record field (.arr [])

/-- `wrap_array_fields` (lines 125–144). -/
def wrap_array_fields (record : PDict) : PDict :=
  array_fields.foldl wrapOne record

/-- `populate_empty_fields` (lines 147–163): only `container` and `types`
are defaulted to an empty dict when absent or falsy. -/
def populate_empty_fields (record : PDict) : PDict :=
  ["container", "types"].foldl
    (fun r f =>
      match alget r f with
      | none => alset r f (.obj [])
      | some v => if truthy v then r else alset r f (.obj []))
    record

/-- `"dateType" in date and date["dateType"] in ["Issued", "issued"]`
for an entry of the `dates` list (entries are dicts in well-formed data). -/
def isIssued (d : JVal) : Bool :=
  match d with
  | .obj fs =>
    match alget fs "dateType" with
    | some (.str s) => s == "Issued" || s == "issued"
    | _ => false
  | _ => false

/-- The `for date in record["dates"]` loop of `populate_published`:
the first `Issued` entry's `date.get("date", None)`, if any. -/
def findPDate : List JVal → Option JVal
  | [] => none
  | d :: t =>
    if isIssued d then
      some (match d with
            | .obj fs => (alget fs "date").getD .null
            | _ => .null)
    else findPDate t

/-- `populate_published` (lines 166–192).  `record["dates"]` raises
`KeyError` when the field is absent. -/
def populate_published (record : PDict) : Except String PDict := do
  let ds ← match alget record "dates" with
    | none => .error "KeyError: dates"
    | some (.arr ds) => .ok ds
    | some _ => .error "TypeError: dates is not iterable"
  let p : Option JVal := findPDate ds
  let pTruthy : Bool := match p with
    | some v => truthy v
    | none => false
  let p : Option JVal :=
    if pTruthy then p
    else
      match alget record "publicationYear" with
      | some py => if truthy py then some (.str (pyStr py)) else p
      | none => p
  .ok (alset record "published" (match p with | some v => v | none => .null))

/-- `r.get("identifier", None)` for an entry of `identifiers`. -/
def identifierOf (r : JVal) : JVal :=
  match r with
  | .obj fs => (alget fs "identifier").getD .null
  | _ => .null

/-- `populate_identifiers` (lines 195–213): drop identifiers equal to the
record's `doi` or `url`; `record["identifiers"]` / `["doi"]` / `["url"]`
raise `KeyError` when absent. -/
def populate_identifiers (record : PDict) : Except String PDict := do
  let ids ← match alget record "identifiers" with
    | none => .error "KeyError: identifiers"
    | some (.arr xs) => .ok xs
    | some _ => .error "TypeError: identifiers is not iterable"
  let doi ← match alget record "doi" with
    | none => .error "KeyError: doi"
    | some v => .ok v
  let url ← match alget record "url" with
    | none => .error "KeyError: url"
    | some v => .ok v
  let kept := ids.filter fun r => !(jvalBeq (identifierOf r) doi || jvalBeq (identifierOf r) url)
  .ok (alset record "identifiers" (.arr kept))

/-- The comprehension of `populate_alternate_identifiers` (lines 237–244):
the condition uses `r["identifier"]` (a `KeyError` when absent), the
mapped entries use `r.get(..., None)`. -/
def buildAlts (doi url : JVal) : List JVal → Except String (List JVal)
  | [] => .ok []
  | r :: t => do
    let ident ← match r with
      | .obj fs =>
        match alget fs "identifier" with
        | some v => Except.ok v
        | none => Except.error "KeyError: identifier"
      | _ => Except.error "TypeError: not a dict"
    let rest ← buildAlts doi url t
    if jvalBeq ident doi || jvalBeq ident url then .ok rest
    else
      let ty := match r with
        | .obj fs => (alget fs "identifierType").getD .null
        | _ => .null
      .ok (.obj [("alternateIdentifierType", ty), ("alternateIdentifier", ident)] :: rest)

/-- `populate_alternate_identifiers` (lines 215–245). -/
def populate_alternate_identifiers (record : PDict) : Except String PDict := do
  let ids ← match alget record "identifiers" with
    | none => .error "KeyError: identifiers"
    | some (.arr xs) => .ok xs
    | some _ => .error "TypeError: identifiers is not iterable"
  let doi ← match alget record "doi" with
    | none => .error "KeyError: doi"
    | some v => .ok v
  let url ← match alget record "url" with
    | none => .error "KeyError: url"
    | some v => .ok v
  let alts ← buildAlts doi url ids
  .ok (alset record "alternateIdentifiers" (.arr alts))

/-- `convert_is_active` (lines 248–262):
`bytes(record["isActive"], "utf-8").getbyte(0) == 1` — the stored value
is a one-byte string such as `"\x01"`, whose first code point is its
first UTF-8 byte. -/
def convert_is_active (record : PDict) : Except String PDict := do
  let v ← match alget record "isActive" with
    | none => .error "KeyError: isActive"
    | some v => .ok v
  match v with
  | .str s =>
    match s.toList with
    | [] => .error "IndexError: index out of range"
    | c :: _ => .ok (alset record "isActive" (.bool (c.toNat == 1)))
  | _ => .error "TypeError: encoding without a string argument"

/-- `[{"id": x, "type": "dois"} for x in ids]` (used for media, references,
citations, parts, partOf, versions, versionOf). -/
def linkItems (ids : List JVal) : JVal :=
  .obj [("data", .arr (ids.map fun x => .obj [("id", x), ("type", .str "dois")]))]

/-- A `{"data": {"id": …, "type": …}}` singleton relationship. -/
def linkOne (ident : JVal) (ty : String) : JVal :=
  .obj [("data", .obj [("id", ident), ("type", .str ty)])]

/-- Iterate a value that must be a Python list. -/
def asList (v : JVal) : Except String (List JVal) :=
  match v with
  | .arr xs => .ok xs
  | _ => .error "TypeError: not iterable"

/-- The keys the reconciler selects for regeneration, read off the action
list it produces. -/
def selectedKeys (acts : List RAction) : List String :=
  acts.filterMap fun a =>
    match a with
    | .requeue k _ _ => some k
    | .sentinel => none

/-- `json_serialize` (lines 22–122 of `src/alopekis/serializer.py`). -/
def json_serialize (record : PDict) : Except String JVal := do
  let (client_id, record) ← dpop record "client_id"
  let (provider_id, record) ← dpop record "provider_id"
  let (media_ids, record) ← dpop record "media_ids"
  let (reference_ids, record) ← dpop record "reference_ids"
  let (citation_ids, record) ← dpop record "citation_ids"
  let (part_ids, record) ← dpop record "part_ids"
  let (part_of_ids, record) ← dpop record "part_of_ids"
  let (version_ids, record) ← dpop record "version_ids"
  let (version_of_ids, record) ← dpop record "version_of_ids"
  let (uid, record) ← dpop record "uid"
  let record := alset record "doi" uid
  let (pub, record) ← dpop record "publisher_obj"
  let record := alset record "publisher" pub
  let (ver, record) ← dpop record "version_info"
  let record := alset record "version" ver
  let (st, record) ← dpop record "aasm_state"
  let record := alset record "state" st
  let record := camelizeFields record
  let record := wrap_array_fields record
  let record := populate_empty_fields record
  let record ← populate_published record
  let record ← populate_identifiers record
  let record ← populate_alternate_identifiers record
  let record ← convert_is_active record
  let doi ← match alget record "doi" with
    | none => .error "KeyError: doi"
    | some v => .ok v
  let media ← asList media_ids
  let references ← asList reference_ids
  let citations ← asList citation_ids
  let parts ← asList part_ids
  let partOf ← asList part_of_ids
  let versions ← asList version_ids
  let versionOf ← asList version_of_ids
  .ok (.obj
    [("id", doi),
     ("type", .str "dois"),
     ("attributes", .obj record),
     ("relationships", .obj
       [("client", linkOne client_id "clients"),
        ("provider", linkOne provider_id "providers"),
        ("media", linkItems media),
        ("references", linkItems references),
        ("citations", linkItems citations),
        ("parts", linkItems parts),
        ("partOf", linkItems partOf),
        ("versions", linkItems versions),
        ("versionOf", linkItems versionOf)])])

/-- Whether an `Except` computation succeeded. -/
def exceptOk {ε α : Type} (e : Except ε α) : Bool :=
  match e with
  | .ok _ => true
  | .error _ => false

/-! ## Concrete fixtures used by the theorems below -/

/-- A reconciler state with one bucket holding both counts
(expected 10, final 4). -/
def resultsW1 : Results :=
  [("2024-1", { year := 2024, month := 1, expected := some 10, final := some 4 })]

/-- A fully reconciled two-bucket state: `2024-1` exact, `2024-2` short
by 60. -/
def resultsW2 : Results :=
  [("2024-1", { year := 2024, month := 1, expected := some 100, final := some 100,
                diff := some 0, pct := some 0 }),
   ("2024-2", { year := 2024, month := 2, expected := some 100, final := some 40,
                diff := some 60, pct := some 60 })]

/-- Thresholds 10 / 50, two workers, current month far away from the
tracked buckets. -/
def cfgW2 : Cfg :=
  { totalThreshold := 10, monthThreshold := 50, workerCount := 2, currentKey := "2099-01" }

/-- A well-formed record carrying every field `json_serialize` touches. -/
def baseRecord : PDict :=
  [("uid", .str "10.1234/abc"),
   ("client_id", .str "datacite.x"),
   ("provider_id", .str "datacite"),
   ("media_ids", .arr []),
   ("reference_ids", .arr [.str "10.5/r1"]),
   ("citation_ids", .arr []),
   ("part_ids", .arr []),
   ("part_of_ids", .arr []),
   ("version_ids", .arr []),
   ("version_of_ids", .arr []),
   ("publisher_obj", .obj [("name", .str "Pub")]),
   ("version_info", .str "1.0"),
   ("aasm_state", .str "findable"),
   ("url", .str "https://example.org/x"),
   ("identifiers", .arr [.obj [("identifierType", .str "DOI"), ("identifier", .str "10.1234/abc")],
                         .obj [("identifierType", .str "ARK"), ("identifier", .str "ark:/123")]]),
   ("dates", .arr [.obj [("date", .str "2020-01-01"), ("dateType", .str "Issued")]]),
   ("publication_year", .num 2020),
   ("is_active", .str "\x01"),
   ("titles", .obj [("title", .str "T")]),
   ("container", .obj []),
   ("types", .obj [("ris", .str "DATA")]),
   ("rights_list", .arr [])]

/-- `baseRecord` with the allow-listed `dates` field absent (as OpenSearch
source filtering delivers it when the document has no dates). -/
def recordNoDates : PDict :=
  alerase baseRecord "dates"

/-! ## Theorems -/

theorem selectedKeys_map_requeue (l : List (String × Bucket)) :
    selectedKeys (l.map fun p => RAction.requeue p.1 p.2.year p.2.month) = l.map Prod.fst := by
  induction l with
  | nil => rfl
  | cons h t ih =>
    simp only [List.map_cons, selectedKeys, List.filterMap_cons]
    exact congrArg (h.1 :: ·) ih

theorem selectedKeys_replicate_sentinel (n : Nat) :
    selectedKeys (List.replicate n RAction.sentinel) = [] := by
  induction n with
  | zero => rfl
  | succ k ih =>
    simp only [List.replicate_succ, selectedKeys, List.filterMap_cons]
    exact ih

@[simp] theorem csvRows_nil : csvRows [] = [] := rfl

@[simp] theorem csvRows_cons_open (p : String) (l : List WEvent) :
    csvRows (WEvent.openSeq p :: l) = csvRows l := rfl

@[simp] theorem csvRows_cons_row (row : CsvRow) (l : List WEvent) :
    csvRows (WEvent.csvRow row :: l) = row :: csvRows l := rfl

@[simp] theorem csvRows_cons_json (r : WRecord) (l : List WEvent) :
    csvRows (WEvent.jsonLine r :: l) = csvRows l := rfl

@[simp] theorem csvRows_append (l1 l2 : List WEvent) :
    csvRows (l1 ++ l2) = csvRows l1 ++ csvRows l2 :=
  List.filterMap_append l1 l2 _

@[simp] theorem jsonRecords_nil : jsonRecords [] = [] := rfl

@[simp] theorem jsonRecords_cons_open (p : String) (l : List WEvent) :
    jsonRecords (WEvent.openSeq p :: l) = jsonRecords l := rfl

@[simp] theorem jsonRecords_cons_row (row : CsvRow) (l : List WEvent) :
    jsonRecords (WEvent.csvRow row :: l) = jsonRecords l := rfl

@[simp] theorem jsonRecords_cons_json (r : WRecord) (l : List WEvent) :
    jsonRecords (WEvent.jsonLine r :: l) = r :: jsonRecords l := rfl

@[simp] theorem jsonRecords_append (l1 l2 : List WEvent) :
    jsonRecords (l1 ++ l2) = jsonRecords l1 ++ jsonRecords l2 :=
  List.filterMap_append l1 l2 _

@[simp] theorem seqPaths_nil : seqPaths [] = [] := rfl

@[simp] theorem seqPaths_cons_open (p : String) (l : List WEvent) :
    seqPaths (WEvent.openSeq p :: l) = p :: seqPaths l := rfl

@[simp] theorem seqPaths_cons_row (row : CsvRow) (l : List WEvent) :
    seqPaths (WEvent.csvRow row :: l) = seqPaths l := rfl

@[simp] theorem seqPaths_cons_json (r : WRecord) (l : List WEvent) :
    seqPaths (WEvent.jsonLine r :: l) = seqPaths l := rfl

@[simp] theorem seqPaths_append (l1 l2 : List WEvent) :
    seqPaths (l1 ++ l2) = seqPaths l1 ++ seqPaths l2 :=
  List.filterMap_append l1 l2 _

/-- The observable effect of one `processRecord` step on the event log
and the counters. -/
theorem processRecord_log (p : String) (st : WorkerState) (r : WRecord) :
    csvRows (processRecord p st r).log = csvRows st.log ++ [csv_serialize r]
    ∧ jsonRecords (processRecord p st r).log
        = jsonRecords st.log ++ (if r.aasm_state = "findable" then [r] else [])
    ∧ seqPaths (processRecord p st r).log
        = seqPaths st.log ++ (if (st.resultsCount + 1) % 10000 = 0 then [p] else [])
    ∧ (processRecord p st r).resultsCount = st.resultsCount + 1 := by
  simp only [processRecord]
  split_ifs <;> simp

/-- The cumulative effect of the record loop: one CSV row per record, a
JSONL line exactly for the findable records, the count advanced by the
number of records, and every sequence-file open using the single path
`p`. -/
theorem foldl_processRecord_log (p : String) :
    ∀ (rs : List WRecord) (st : WorkerState),
      csvRows ((rs.foldl (processRecord p) st).log)
          = csvRows st.log ++ rs.map csv_serialize
      ∧ jsonRecords ((rs.foldl (processRecord p) st).log)
          = jsonRecords st.log ++ rs.filter (fun r => decide (r.aasm_state = "findable"))
      ∧ (rs.foldl (processRecord p) st).resultsCount = st.resultsCount + rs.length
      ∧ ∃ n, seqPaths ((rs.foldl (processRecord p) st).log)
          = seqPaths st.log ++ List.replicate n p := by
  intro rs
  induction rs with
  | nil =>
    intro st
    exact ⟨by simp, by simp, by simp, 0, by simp⟩
  | cons r rs ih =>
    intro st
    obtain ⟨hc, hj, hs, hn⟩ := processRecord_log p st r
    obtain ⟨ic, ij, icount, n, ipaths⟩ := ih (processRecord p st r)
    refine ⟨?_, ?_, ?_, ?_⟩
    · rw [List.foldl_cons, ic, hc]
      simp
    · rw [List.foldl_cons, ij, hj, List.filter_cons]
      by_cases hfind : r.aasm_state = "findable" <;> simp [hfind]
    · rw [List.foldl_cons, icount, hn]
      simp only [List.length_cons]
      omega
    · by_cases hrot : (st.resultsCount + 1) % 10000 = 0
    -- the rotation branch contributes one extra open of the same path
      · refine ⟨n + 1, ?_⟩
        rw [List.foldl_cons, ipaths, hs, if_pos hrot, List.append_assoc,
            List.replicate_succ]
        rfl
      · refine ⟨n, ?_⟩
        rw [List.foldl_cons, ipaths, hs, if_neg hrot]
        simp

/-- C6 counter-evidence: `json_file_path` is computed once (with
`current_file_index = 0`, line 63 of `src/alopekis/worker.py`) and the
rotation branch (lines 100–104) increments `current_file_index` but
reopens that same path, so every sequence-file open of a job — for any
number of records, in particular 25,001 — targets the single path
`part_0000.jsonl.gz`: no `part_0001`/`part_0002` file is ever created,
against the claimed 3 distinct files. -/
theorem runJob_single_seq_path (year month : Nat) (records : List WRecord) :
    ∃ n, seqPaths (runJob year month records).log
        = List.replicate (n + 1) (partPath year month 0) := by
  obtain ⟨-, -, -, n, hpaths⟩ :=
    foldl_processRecord_log (partPath year month 0) records
      { resultsCount := 0, currentFileIndex := 0,
        log := [WEvent.openSeq (partPath year month 0)] }
  refine ⟨n, ?_⟩
  show seqPaths (records.foldl (processRecord (partPath year month 0))
      { resultsCount := 0, currentFileIndex := 0,
        log := [WEvent.openSeq (partPath year month 0)] }).log = _
  rw [hpaths, List.replicate_succ]
  rfl

/-- C8: in the worker's record loop every record produces a row in the
tabular CSV and advances the running count, while the full record is
written to the JSONL sequence file if and only if its `aasm_state` is
`"findable"` (lines 83–93 of `src/alopekis/worker.py`). -/
theorem runJob_csv_always_json_iff_findable (year month : Nat) (records : List WRecord) :
    csvRows (runJob year month records).log = records.map csv_serialize
    ∧ jsonRecords (runJob year month records).log
        = records.filter (fun r => decide (r.aasm_state = "findable"))
    ∧ (runJob year month records).resultsCount = records.length := by
  obtain ⟨hc, hj, hcount, -⟩ :=
    foldl_processRecord_log (partPath year month 0) records
      { resultsCount := 0, currentFileIndex := 0,
        log := [WEvent.openSeq (partPath year month 0)] }
  exact ⟨by simpa using hc, by simpa using hj, by simpa using hcount⟩

/-- C1: for every bucket tracked by the Reconciler, once both an Expected
and a Final count are present, processing the completing Final event
computes `diff = expected - final`, and `pct = 0` when `expected = 0`,
else `pct = 100 * diff / expected` (lines 94–96 of `src/main.py`). -/
theorem mergeFinal_diff_pct (results : Results) (key : String) (b : Bucket) (exp fin : Nat)
    (hb : alget results key = some b) (he : b.expected = some exp) (hf : b.final = some fin) :
    ∃ results', mergeFinal results key = .ok results'
      ∧ ∃ b', alget results' key = some b'
        ∧ b'.diff = some ((exp : Int) - (fin : Int))
        ∧ b'.pct = some (if exp = 0 then (0 : Rat)
            else 100 * (((exp : Int) - (fin : Int) : Int) : Rat) / (exp : Rat)) := by
  have hmf : mergeFinal results key
      = .ok (alupdate results key fun b0 =>
          { b0 with
            diff := some ((exp : Int) - (fin : Int)),
            pct := some (if 0 < exp
              then ((((exp : Int) - (fin : Int) : Int) : Rat) / (exp : Rat)) * 100
              else 0) }) := by
    simp only [mergeFinal, hb, he, hf]
  refine ⟨_, hmf, ?_⟩
  rw [alget_alupdate, hb, Option.map_some']
  refine ⟨_, rfl, rfl, ?_⟩
  show some (if 0 < exp
      then ((((exp : Int) - (fin : Int) : Int) : Rat) / (exp : Rat)) * 100
      else 0) = _
  by_cases h0 : exp = 0
  · subst h0; norm_num
  · have hpos : 0 < exp := Nat.pos_of_ne_zero h0
    rw [if_pos hpos, if_neg h0, div_mul_eq_mul_div, mul_comm]

/-- Witness for C1 at a concrete state: bucket `2024-1` with
expected 10 and final 4. -/
theorem mergeFinal_diff_pct_witness :
    alget resultsW1 "2024-1"
        = some { year := 2024, month := 1, expected := some 10, final := some 4 }
    ∧ ∃ results', mergeFinal resultsW1 "2024-1" = .ok results'
      ∧ ∃ b', alget results' "2024-1" = some b'
        ∧ b'.diff = some ((10 : Int) - (4 : Int))
        ∧ b'.pct = some (if (10 : Nat) = 0 then (0 : Rat)
            else 100 * ((((10 : Nat) : Int) - ((4 : Nat) : Int) : Int) : Rat) / ((10 : Nat) : Rat)) :=
  ⟨rfl, mergeFinal_diff_pct resultsW1 "2024-1"
    { year := 2024, month := 1, expected := some 10, final := some 4 } 10 4 rfl rfl rfl⟩

/-- C2: when every tracked bucket is reconciled and the discrepancy sum
exceeds `TOTAL_THRESHOLD`, the buckets selected for regeneration are
exactly those with `diff > MONTH_THRESHOLD` (each bucket judged by its
own diff alone), and if none qualifies, one shutdown sentinel per worker
is enqueued instead (lines 104–143 of `src/main.py`). -/
theorem analyse_selection (cfg : Cfg) (results : Results) (d : Int)
    (_hall : allFinal results = true)
    (hsum : sumDiffs results cfg.currentKey = .ok d)
    (hgt : cfg.totalThreshold < d) :
    ∃ results' acts, analyse cfg results = .ok (results', acts)
      ∧ selectedKeys acts
          = (results.filter fun p => bucketDiffGT cfg.monthThreshold p.2).map Prod.fst
      ∧ ((results.filter fun p => bucketDiffGT cfg.monthThreshold p.2) = []
          → acts = List.replicate cfg.workerCount RAction.sentinel) := by
  by_cases hr : (results.filter fun p => bucketDiffGT cfg.monthThreshold p.2) = []
  · refine ⟨results, List.replicate cfg.workerCount RAction.sentinel, ?_, ?_, fun _ => rfl⟩
    · simp only [analyse, hsum, if_pos hgt, hr, List.length_nil, Nat.lt_irrefl, if_false]
    · rw [hr, selectedKeys_replicate_sentinel, List.map_nil]
  · have hlen : 0 < (results.filter fun p => bucketDiffGT cfg.monthThreshold p.2).length :=
      List.length_pos.mpr hr
    refine ⟨(results.filter fun p => bucketDiffGT cfg.monthThreshold p.2).foldl
              (fun acc p => alerase acc p.1) results,
            (results.filter fun p => bucketDiffGT cfg.monthThreshold p.2).map
              (fun p => RAction.requeue p.1 p.2.year p.2.month),
            ?_, ?_, fun h => absurd h hr⟩
    · simp only [analyse, hsum, if_pos hgt, if_pos hlen]
    · exact selectedKeys_map_requeue _

/-- Witness for C2 at a concrete reconciled state: `2024-2` (diff 60)
is selected, `2024-1` (diff 0) is not. -/
theorem analyse_selection_witness :
    allFinal resultsW2 = true
    ∧ sumDiffs resultsW2 cfgW2.currentKey = .ok 60
    ∧ cfgW2.totalThreshold < 60
    ∧ ∃ results' acts, analyse cfgW2 resultsW2 = .ok (results', acts)
      ∧ selectedKeys acts
          = (resultsW2.filter fun p => bucketDiffGT cfgW2.monthThreshold p.2).map Prod.fst
      ∧ ((resultsW2.filter fun p => bucketDiffGT cfgW2.monthThreshold p.2) = []
          → acts = List.replicate cfgW2.workerCount RAction.sentinel) :=
  ⟨rfl, rfl, by decide, analyse_selection cfgW2 resultsW2 60 rfl rfl (by decide)⟩

/-- C3 counter-evidence: bucket keys are built as `f"{year}-{month}"`
(no zero padding) while the current-month key is
`date.today().strftime("%Y-%m")` (zero padded), so for runs in
January–September the current calendar month's bucket is NOT excluded
from the discrepancy sum.  Concretely, in March 2024 the sole bucket
`2024-3` (diff 60) is its own current month, yet the discrepancy comes
out 60 (not 0) and the bucket is selected for regeneration instead of
the worker pool being shut down. -/
theorem sumDiffs_includes_current_month :
    strftimeYM 2024 3 ≠ bucketKey 2024 3
    ∧ processEvent { totalThreshold := 10, monthThreshold := 50, workerCount := 2,
                     currentKey := strftimeYM 2024 3 }
        [(bucketKey 2024 3, { year := 2024, month := 3, expected := some 100 })]
        { year := 2024, month := 3, count := 40, status := .final }
      = .ok ([], [RAction.requeue (bucketKey 2024 3) 2024 3]) := by
  exact ⟨by decide, by rfl⟩

/-- C4 counter-evidence: a `Final` outcome event arriving before the
`Expected` event for its bucket makes the reconciler read the missing
`expected` key (line 95 of `src/main.py`), a `KeyError`, instead of
merging and waiting for the Expected event. -/
theorem processEvent_final_first_keyError (cfg : Cfg) :
    processEvent cfg [] { year := 2024, month := 5, count := 10, status := .final }
      = .error "KeyError: expected" := rfl

/-- No outcome of the pagination loop is `tooManyTimeouts`: the
`raise TooManyTimeouts` of `return_all_results` (opensearch.py:65) sits
inside the `try` suite and `TooManyTimeouts` subclasses `Exception`, so
the broad `except Exception` (line 69) always catches it. -/
theorem runStream_ne_tooManyTimeouts (backend : Option Nat → BackendResult) :
    ∀ fuel cursor tc fc attempts acc k,
      runStream backend fuel cursor tc fc attempts acc ≠ StreamOut.tooManyTimeouts k := by
  intro fuel
  induction fuel with
  | zero =>
    intro cursor tc fc attempts acc k h
    exact StreamOut.noConfusion h
  | succ n ih =>
    intro cursor tc fc attempts acc k h
    rw [runStream] at h
    cases hbc : backend cursor with
    | page hits =>
      simp only [hbc] at h
      cases hits with
      | nil => exact StreamOut.noConfusion h
      | cons x xs => exact ih _ _ _ _ _ _ h
    | timeout =>
      simp only [hbc] at h
      by_cases h3 : 10 < tc + 1
      · rw [if_pos h3] at h
        by_cases h4 : 10 < fc + 1
        · rw [if_pos h4] at h
          exact StreamOut.noConfusion h
        · rw [if_neg h4] at h
          exact ih _ _ _ _ _ _ h
      · rw [if_neg h3] at h
        exact ih _ _ _ _ _ _ h
    | failure =>
      simp only [hbc] at h
      by_cases h3 : 10 < fc + 1
      · rw [if_pos h3] at h
        exact StreamOut.noConfusion h
      · rw [if_neg h3] at h
        exact ih _ _ _ _ _ _ h

/-- C5 counter-evidence: against a backend whose every response carries
the timed-out signal, `return_all_results` does NOT raise
`TooManyTimeouts` after 11 attempts.  The raise at opensearch.py:65 is
inside the `try` whose broad `except Exception` (line 69) catches it
(`TooManyTimeouts` subclasses `Exception`), so attempts 11–20 are each
counted as a failure and retried, and the 21st attempt raises
`TooManyFailures` from inside the handler — the only way the stream
ends: after exactly 21 attempts, with the wrong exception.  The second
conjunct shows `TooManyTimeouts` after 11 attempts can never be the
outcome, whatever the step budget. -/
theorem runStream_allTimeout_tooManyFailures :
    runStream (fun _ => BackendResult.timeout) 21 none 0 0 0 []
        = StreamOut.tooManyFailures 21
    ∧ ∀ fuel, runStream (fun _ => BackendResult.timeout) fuel none 0 0 0 []
        ≠ StreamOut.tooManyTimeouts 11 :=
  ⟨by decide,
   fun fuel => runStream_ne_tooManyTimeouts (fun _ => BackendResult.timeout)
     fuel none 0 0 0 [] 11⟩

theorem runStream_page_nil {backend : Option Nat → BackendResult} {cursor : Option Nat}
    (hb : backend cursor = BackendResult.page []) (n tc fc attempts : Nat) (acc : List Nat) :
    runStream backend (n + 1) cursor tc fc attempts acc
      = StreamOut.finished acc (attempts + 1) := by
  simp only [runStream, hb]

theorem runStream_page_cons {backend : Option Nat → BackendResult} {cursor : Option Nat}
    {x : Nat} {xs : List Nat}
    (hb : backend cursor = BackendResult.page (x :: xs)) (n tc fc attempts : Nat)
    (acc : List Nat) :
    runStream backend (n + 1) cursor tc fc attempts acc
      = runStream backend n (some ((x :: xs).getLast (List.cons_ne_nil x xs))) tc fc
          (attempts + 1) (acc ++ (x :: xs)) := by
  simp only [runStream, hb]

theorem sorted_le_getLast (l : List Nat) (h : l ≠ []) (hs : l.Sorted (· < ·)) :
    ∀ x ∈ l, x ≤ l.getLast h := by
  induction l with
  | nil => exact absurd rfl h
  | cons a t ih =>
    intro x hx
    cases t with
    | nil =>
      rcases List.mem_singleton.mp hx
      exact le_refl _
    | cons b t2 =>
      rw [List.getLast_cons (List.cons_ne_nil b t2)]
      rcases List.mem_cons.mp hx with rfl | hx2
      · have hmem := List.getLast_mem (List.cons_ne_nil b t2)
        have := (List.sorted_cons.mp hs).1 _ hmem
        omega
      · exact ih (List.cons_ne_nil b t2) (List.sorted_cons.mp hs).2 x hx2

/-- Filtering a sorted list for the elements strictly above the maximum of
its first `ps` elements leaves exactly the rest of the list. -/
theorem sorted_filter_above (l : List Nat) (hs : l.Sorted (· < ·)) (ps : Nat) (c' : Nat)
    (hmem : c' ∈ l.take ps) (hmax : ∀ y ∈ l.take ps, y ≤ c') :
    l.filter (fun x => decide (c' < x)) = l.drop ps := by
  have hs2 : (l.take ps ++ l.drop ps).Pairwise (· < ·) := by
    rw [List.take_append_drop]
    exact hs
  obtain ⟨-, -, hcross⟩ := List.pairwise_append.mp hs2
  conv_lhs => rw [← List.take_append_drop ps l]
  rw [List.filter_append]
  have h1 : (l.take ps).filter (fun x => decide (c' < x)) = [] := by
    rw [List.filter_eq_nil_iff]
    intro a ha
    have := hmax a ha
    simp only [decide_eq_true_eq]
    omega
  have h2 : (l.drop ps).filter (fun x => decide (c' < x)) = l.drop ps := by
    rw [List.filter_eq_self]
    intro a ha
    have := hcross c' hmem a ha
    simp only [decide_eq_true_eq]
    omega
  rw [h1, h2, List.nil_append]

theorem filterCur_sorted (all : List Nat) (hall : all.Sorted (· < ·)) (c : Option Nat) :
    (filterCur all c).Sorted (· < ·) := by
  cases c with
  | none => exact hall
  | some c0 => exact hall.filter _

/-- Advancing the cursor to an element of the remaining suffix narrows the
remaining records to those strictly above it. -/
theorem filterCur_above (all : List Nat) (_hall : all.Sorted (· < ·)) (c : Option Nat)
    (l : List Nat) (hcur : filterCur all c = l) (c' : Nat) (hmem : c' ∈ l) :
    filterCur all (some c') = l.filter fun x => decide (c' < x) := by
  cases c with
  | none =>
    rw [← hcur]
    rfl
  | some c0 =>
    have hc0c' : c0 < c' := by
      rw [← hcur] at hmem
      exact of_decide_eq_true (List.mem_filter.mp hmem).2
    rw [← hcur]
    show all.filter (fun x => decide (c' < x))
        = (all.filter fun x => decide (c0 < x)).filter fun x => decide (c' < x)
    rw [List.filter_filter]
    apply List.filter_congr
    intro x _
    by_cases hx' : c' < x
    · simp [hx', lt_trans hc0c' hx']
    · simp [hx']

/-- The pagination loop against the cursor-correct fixture backend:
whenever the records still ahead of the cursor are `l` (and the fuel
covers them), the stream finishes having yielded exactly `acc ++ l`. -/
theorem runStream_pager_aux (all : List Nat) (hall : all.Sorted (· < ·)) (pp : Nat) :
    ∀ fuel l c tc fc attempts acc, filterCur all c = l → l.length < fuel →
      ∃ k, runStream (pager all (pp + 1)) fuel c tc fc attempts acc
          = StreamOut.finished (acc ++ l) k := by
  intro fuel
  induction fuel with
  | zero =>
    intro l c tc fc attempts acc hcur hlen
    omega
  | succ n ih =>
    intro l c tc fc attempts acc hcur hlen
    cases l with
    | nil =>
      have hbnil : pager all (pp + 1) c = BackendResult.page [] := by
        simp only [pager, pageOf, hcur, List.take_nil]
      refine ⟨attempts + 1, ?_⟩
      rw [runStream_page_nil hbnil, List.append_nil]
    | cons x xs =>
      have hbpage : pager all (pp + 1) c = BackendResult.page (x :: xs.take pp) := by
        simp only [pager, pageOf, hcur, List.take_succ_cons]
      have hlsorted : (x :: xs).Sorted (· < ·) := by
        rw [← hcur]
        exact filterCur_sorted all hall c
      have hpsorted : (x :: xs.take pp).Sorted (· < ·) :=
        List.Pairwise.sublist (by simpa using List.take_sublist (pp + 1) (x :: xs)) hlsorted
      have hmax : ∀ y ∈ (x :: xs).take (pp + 1),
          y ≤ (x :: xs.take pp).getLast (List.cons_ne_nil x (xs.take pp)) := by
        intro y hy
        rw [List.take_succ_cons] at hy
        exact sorted_le_getLast _ _ hpsorted y hy
      have hmemp : (x :: xs.take pp).getLast (List.cons_ne_nil x (xs.take pp))
          ∈ (x :: xs).take (pp + 1) := by
        rw [List.take_succ_cons]
        exact List.getLast_mem _
      have hmeml : (x :: xs.take pp).getLast (List.cons_ne_nil x (xs.take pp)) ∈ x :: xs :=
        List.take_subset (pp + 1) (x :: xs) hmemp
      have hstep : filterCur all
          (some ((x :: xs.take pp).getLast (List.cons_ne_nil x (xs.take pp))))
          = (x :: xs).drop (pp + 1) := by
        rw [filterCur_above all hall c (x :: xs) hcur _ hmeml]
        exact sorted_filter_above (x :: xs) hlsorted (pp + 1) _ hmemp hmax
      obtain ⟨k, hk⟩ := ih ((x :: xs).drop (pp + 1))
        (some ((x :: xs.take pp).getLast (List.cons_ne_nil x (xs.take pp))))
        tc fc (attempts + 1) (acc ++ (x :: xs.take pp)) hstep
        (by rw [List.length_drop]; simp only [List.length_cons] at hlen ⊢; omega)
      refine ⟨k, ?_⟩
      rw [runStream_page_cons hbpage, hk, List.append_assoc]
      have hrejoin : (x :: xs.take pp) ++ (x :: xs).drop (pp + 1) = x :: xs := by
        rw [← List.take_succ_cons, List.take_append_drop]
      rw [hrejoin]

/-- C7: against a backend serving a finite record set in sort order with
cursor-based pages (cursor = sort key of the last record yielded,
resumption strictly after it), `return_all_results` yields every record
exactly once, in order, with no duplicates or omissions, and terminates
normally — via the zero-record page — rather than with an error
(lines 44–59 of `src/alopekis/opensearch.py`). -/
theorem runStream_pager_yields_all (all : List Nat) (ps : Nat)
    (hall : all.Sorted (· < ·)) (hps : 0 < ps) :
    ∃ k, runStream (pager all ps) (all.length + 1) none 0 0 0 []
        = StreamOut.finished all k := by
  obtain ⟨pp, rfl⟩ : ∃ pp, ps = pp + 1 := ⟨ps - 1, by omega⟩
  obtain ⟨k, hk⟩ := runStream_pager_aux all hall pp (all.length + 1) all none 0 0 0 []
    rfl (by omega)
  exact ⟨k, by rw [hk, List.nil_append]⟩

/-- Witness for C7: the 10-record bucket served in pages of 3 yields
exactly the 10 records in order. -/
theorem runStream_pager_yields_all_witness :
    ([0, 1, 2, 3, 4, 5, 6, 7, 8, 9] : List Nat).Sorted (· < ·)
    ∧ (0 : Nat) < 3
    ∧ ∃ k, runStream (pager [0, 1, 2, 3, 4, 5, 6, 7, 8, 9] 3) 11 none 0 0 0 []
        = StreamOut.finished [0, 1, 2, 3, 4, 5, 6, 7, 8, 9] k :=
  ⟨by decide, by decide,
   runStream_pager_yields_all [0, 1, 2, 3, 4, 5, 6, 7, 8, 9] 3 (by decide) (by decide)⟩

/-- C10: `queue_month` treats a provided count of 0 exactly like an absent
count — `if count:` is false for 0, so the backend is re-queried and the
provided 0 is never propagated into the Job or the Expected event
(lines 34–53 of `src/alopekis/utils.py`). -/
theorem queue_month_zero_treated_as_absent (backend : Nat → Nat → Option Int)
    (year month : Nat) :
    queue_month backend year month (some 0) = queue_month backend year month none
    ∧ (queue_month backend year month (some 0)).1.count = get_month_count backend year month
    ∧ (queue_month backend year month (some 0)).2.count = get_month_count backend year month :=
  ⟨rfl, rfl, rfl⟩

/-- C9 counter-evidence: `json_serialize` is not total on well-formed
records missing an allow-listed field.  `populate_empty_fields` only
normalizes `container` and `types`; a record lacking the allow-listed
`dates` field (all other fields present, as witnessed by `baseRecord`
serializing fine) makes `populate_published` evaluate `record["dates"]`
(line 183 of `src/alopekis/serializer.py`) and raise `KeyError` instead
of returning an output with `dates` as an empty container. -/
theorem json_serialize_missing_dates_keyError :
    exceptOk (json_serialize baseRecord) = true
    ∧ json_serialize recordNoDates = Except.error "KeyError: dates" :=
  ⟨by rfl, by rfl⟩
